import Mathlib

/-!
Verification development for the Calendar-extension scheduler.

Shallow embedding of the repository's core modules:
* `src/lib/scheduler.js` — time-string comparison (`toMinutes`, `maxTimeStr`,
  `minTimeStr`), fixed-duration slot generation (`createTimeSlots`) and
  busy-period filtering (`overlaps`, `filterFreeSlots`);
* `src/background/background.js` — the `runScheduler` orchestrator: payload
  validation, day classification, per-day range resolution, the day loop and
  its accumulated totals, and `isValidRange`;
* `src/lib/auth.js` — credential validity (`isTokenStillValid`,
  `isAuthenticated`) and the token-acquisition control flow
  (`getAccessToken`);
* `src/lib/calendarApi.js` — construction of the free/busy query window
  (`getBusyPeriodsForDay`), which hard-codes a `-05:00` UTC offset.

Modelling conventions: an "HH:MM" time string is a pair of hour/minute
numbers (`toMinutes` reproduces `h * 60 + m` exactly); JavaScript `Date`
instants are milliseconds as `Nat` (`Int` where a subtraction can go
negative, as in the 60-second expiry margin); JavaScript falsy checks on
possibly-missing fields are `Option`; the `while` loop of `createTimeSlots`
is embedded with explicit fuel so that its non-termination at duration 0 is
observable as `none`; network/storage side effects are recorded as explicit
action traces with the remote behaviour supplied as an environment.
-/

/-- An "HH:MM" time string, kept as its two numeric components.
`toMinutes` below is the module's `toMinutes` (h * 60 + m). -/
structure HHMM where
  hour : Nat
  minute : Nat
deriving DecidableEq, Repr

/-- `toMinutes` from src/lib/scheduler.js: converts "HH:MM" to minutes. -/
def toMinutes (t : HHMM) : Nat :=
  t.hour * 60 + t.minute

/-- `maxTimeStr` from src/lib/scheduler.js: returns `t1` when
`m1 >= m2`, else `t2`. -/
def maxTimeStr (t1 t2 : HHMM) : HHMM :=
  if toMinutes t2 ≤ toMinutes t1 then t1 else t2

/-- `minTimeStr` from src/lib/scheduler.js: returns `t1` when
`m1 <= m2`, else `t2`. -/
def minTimeStr (t1 t2 : HHMM) : HHMM :=
  if toMinutes t1 ≤ toMinutes t2 then t1 else t2

/-- `isValidRange` from src/background/background.js: the range is valid
iff `end > start` in minutes. -/
def isValidRange (startT endT : HHMM) : Bool :=
  decide (toMinutes startT < toMinutes endT)

/-- A half-open interval of instants (milliseconds), as produced by
`createTimeSlots` and consumed by `filterFreeSlots`. The JS objects carry
`start`/`end` `Date`s; `end` is a Lean keyword, so the field is `stop`. -/
structure Slot where
  start : Nat
  stop : Nat
deriving DecidableEq, Repr

/-- The `while (current < end)` loop of `createTimeSlots`
(src/lib/scheduler.js), with explicit fuel: each recursive call is one
loop iteration; `none` means the fuel ran out before the loop exited
(which is exactly what happens for duration 0 on a non-empty range, where
`current` never advances). `deltaMs` is `durationMinutes * 60 * 1000`. -/
def createTimeSlotsFuel : Nat → Nat → Nat → Nat → Option (List Slot)
  | 0, current, endMs, _ =>
      if current < endMs then none else some []
  | fuel + 1, current, endMs, deltaMs =>
      if current < endMs then
        if endMs < current + deltaMs then some []
        else
          match createTimeSlotsFuel fuel (current + deltaMs) endMs deltaMs with
          | none => none
          | some rest => some ({ start := current, stop := current + deltaMs } :: rest)
      else some []

/-- The instant `new Date(dateStr + "T" + HH:MM + ":00")` as milliseconds:
the day's base instant plus the time of day. -/
def msOfTime (base : Nat) (t : HHMM) : Nat :=
  base + toMinutes t * 60000

/-- `createTimeSlots` from src/lib/scheduler.js. For any
`durationMinutes ≥ 1` the supplied fuel (`toMinutes endT + 1`) exceeds the
number of loop iterations, so the loop result is `some` and `getD` is
immaterial (proved below). -/
def createTimeSlots (base : Nat) (startT endT : HHMM) (durationMinutes : Nat) : List Slot :=
  (createTimeSlotsFuel (toMinutes endT + 1) (msOfTime base startT) (msOfTime base endT)
      (durationMinutes * 60000)).getD []

/-- `overlaps` from src/lib/scheduler.js: half-open interval overlap,
`aStart < bEnd && bStart < aEnd`. -/
def overlaps (aStart aEnd bStart bEnd : Nat) : Bool :=
  decide (aStart < bEnd) && decide (bStart < aEnd)

/-- `filterFreeSlots` from src/lib/scheduler.js: keep a slot iff no busy
period overlaps it, preserving order (the source pushes onto `free` in
input order; this recursion is that loop). -/
def filterFreeSlots (slots busyPeriods : List Slot) : List Slot :=
  match slots with
  | [] => []
  | s :: rest =>
      if busyPeriods.any fun b => overlaps s.start s.stop b.start b.stop then
        filterFreeSlots rest busyPeriods
      else
        s :: filterFreeSlots rest busyPeriods

/-- The per-day range resolution of `runScheduler`
(src/background/background.js lines 159–175). Days are numbered: `s` is
the start date, `e` the end date, `d` the current day; the source compares
`toDateString()` values, which on day numbers is equality. -/
def resolveDayRange (workdayStart workdayEnd taskStart taskEnd : HHMM) (s e d : Nat) :
    HHMM × HHMM :=
  if s = e then (maxTimeStr workdayStart taskStart, minTimeStr workdayEnd taskEnd)
  else if d = s then (maxTimeStr workdayStart taskStart, workdayEnd)
  else if d = e then (workdayStart, minTimeStr workdayEnd taskEnd)
  else (workdayStart, workdayEnd)

/-- The stored token object of src/lib/auth.js (`googleTokens` in
chrome.storage.local). `none` in `access_token` models a missing or empty
(falsy) field; `none` in `expires_at` models a missing or zero (falsy)
field. `expires_at` is milliseconds since epoch, as `Int` because the
validity check subtracts a 60-second margin. -/
structure Tokens where
  access_token : Option String
  refresh_token : Option String
  expires_at : Option Int
deriving DecidableEq, Repr

/-- `isTokenStillValid` from src/lib/auth.js: false when the object or a
required field is falsy, else `now < expires_at - 60 * 1000`. -/
def isTokenStillValid (now : Int) (tokens : Option Tokens) : Bool :=
  match tokens with
  | none => false
  | some t =>
      match t.access_token, t.expires_at with
      | some _, some e => decide (now < e - 60 * 1000)
      | _, _ => false

/-- `isAuthenticated` from src/lib/auth.js: load the stored tokens and
apply `isTokenStillValid`. The stored state is passed in (and not
returned: the function mutates nothing). -/
def isAuthenticated (now : Int) (stored : Option Tokens) : Bool :=
  isTokenStillValid now stored

/-- Remote/interactive steps taken by `getAccessToken`, in order. -/
inductive AuthEv where
  | refreshCall
  | interactiveFlow
deriving DecidableEq, Repr

/-- Environment for the auth flow: the outcome of a `refreshAccessToken`
call (already in persisted form: the source keeps the old refresh token
when the provider omits one) and the outcome of `startAuthFlowInternal`
(error covers user cancellation, missing redirect or code, and a failed
code exchange). -/
structure AuthEnv where
  refreshOutcome : Except String Tokens
  interactiveOutcome : Except String Tokens
deriving Repr

/-- `startAuthFlowInternal` from src/lib/auth.js, as a trace step: on
success the exchanged tokens are persisted and returned; on failure the
error propagates. `evs` is the trace accumulated so far. -/
def runInteractive (env : AuthEnv) (evs : List AuthEv) :
    List AuthEv × Except String (String × Option Tokens) :=
  match env.interactiveOutcome with
  | .ok t => (evs ++ [.interactiveFlow], .ok (t.access_token.getD "", some t))
  | .error m => (evs ++ [.interactiveFlow], .error m)

/-- `getAccessToken` from src/lib/auth.js (lines 340–359): return the
stored token when still valid; else, when a refresh token exists, try the
refresh and on its failure fall through (the `catch` only logs); else or
after a failed refresh, run the interactive flow. Result: the trace of
remote steps and either (access token, new stored state) or an error. -/
def getAccessToken (env : AuthEnv) (now : Int) (stored : Option Tokens) :
    List AuthEv × Except String (String × Option Tokens) :=
  if isTokenStillValid now stored then
    ([], .ok ((match stored with | some t => t.access_token.getD "" | none => ""), stored))
  else
    match stored with
    | some t =>
        if t.refresh_token.isSome then
          match env.refreshOutcome with
          | .ok nt => ([.refreshCall], .ok (nt.access_token.getD "", some nt))
          | .error _ => runInteractive env [.refreshCall]
        else runInteractive env []
    | none => runInteractive env []

/-- The free/busy query window start of `getBusyPeriodsForDay`
(src/lib/calendarApi.js lines 38–39) as a UTC instant in minutes:
`timeMin = dateStr + "T" + HH:MM + ":00-05:00"` pins the offset to
UTC-05:00, so the UTC instant is the local minutes plus 300, regardless
of the configured `timeZone`. `dayBaseUtc` is the UTC instant (minutes)
of the day's midnight. The same formula builds `timeMax` from the range
end. -/
def busyQueryWindowUtc (dayBaseUtc : Int) (t : HHMM) : Int :=
  dayBaseUtc + (toMinutes t : Int) + 300

/-- Modelled from the spec: the window construction the specification
declares normative ("the configured time zone as authoritative for query
construction") — missing from the source, which hard-codes `-05:00`. A
zone of offset `offsetMinutes` east of UTC places local time `t` at UTC
instant `local - offset`. -/
def zoneWindowUtc (offsetMinutes : Int) (dayBaseUtc : Int) (t : HHMM) : Int :=
  dayBaseUtc + (toMinutes t : Int) - offsetMinutes

/-- Storage and network steps taken by `runScheduler`, in order.
`loadConfig` is a storage read (not a network call); `getToken` is the
`getAccessToken()` call of step 3, which may reach the network;
`busyQuery`/`createEvent` are the Google Calendar calls. -/
inductive SchedAction where
  | loadConfig
  | getToken
  | busyQuery (day : Nat)
  | createEvent (day : Nat) (slot : Slot)
deriving DecidableEq, Repr

/-- The day a scheduler action is scoped to, when any. -/
def schedActionDay : SchedAction → Option Nat
  | .busyQuery d => some d
  | .createEvent d _ => some d
  | _ => none

/-- Environment for `runScheduler`: the configured slot duration (the
source's `parseInt(cfg.slotMinutes || "30", 10)`, already parsed) and the
busy periods Google reports for each day (the model's remote calls do not
fail; failure handling of the remote calls is outside these claims). -/
structure SchedEnv where
  slotMinutes : Nat
  busy : Nat → List Slot

/-- The `RunResult` returned by `runScheduler`. -/
structure RunResult where
  totalSlots : Nat
  totalCreated : Nat
  message : String
deriving DecidableEq, Repr

/-- The `runScheduler` payload. Outer `none` models a falsy (missing or
empty) field, which the validation step rejects. For the two dates the
inner `Option Nat` is the result of `new Date(...)`: `none` is an invalid
date (`NaN`), `some d` the parsed day number. -/
structure Payload where
  eventName : Option String
  eventColor : Option Nat
  dateStart : Option (Option Nat)
  dateEnd : Option (Option Nat)
  workdayStart : Option HHMM
  workdayEnd : Option HHMM
  taskStart : Option HHMM
  taskEnd : Option HHMM

/-- A fully-populated payload with well-formed dates. -/
def mkPayload (name : String) (color : Option Nat) (s e : Nat)
    (wS wE tS tE : HHMM) : Payload :=
  { eventName := some name, eventColor := color,
    dateStart := some (some s), dateEnd := some (some e),
    workdayStart := some wS, workdayEnd := some wE,
    taskStart := some tS, taskEnd := some tE }

/-- One iteration of the day loop of `runScheduler`
(src/background/background.js lines 152–219): resolve the day's range;
when invalid, skip the day (no query, no creation, nothing added to the
totals); otherwise generate the day's slots, query busy periods, filter,
and create one event per free slot in order. The day's base instant is
`d * 86400000` ms. Returns (actions, slots added, events created). -/
def processDay (env : SchedEnv) (wS wE tS tE : HHMM) (s e d : Nat) :
    List SchedAction × Nat × Nat :=
  let r := resolveDayRange wS wE tS tE s e d
  if isValidRange r.1 r.2 then
    let daySlots := createTimeSlots (d * 86400000) r.1 r.2 env.slotMinutes
    let freeSlots := filterFreeSlots daySlots (env.busy d)
    (SchedAction.busyQuery d :: freeSlots.map (fun sl => SchedAction.createEvent d sl),
      daySlots.length, freeSlots.length)
  else ([], 0, 0)

/-- `runScheduler` from src/background/background.js: presence validation
of every payload field (in source order, with the source's error
messages), then config load and token acquisition, then date parsing and
ordering checks, then the day loop over `[dateStart, dateEnd]`
accumulating the trace and the two totals. -/
def runScheduler (env : SchedEnv) (p : Payload) :
    List SchedAction × Except String RunResult :=
  match p.eventName with
  | none => ([], .error "Falta el nombre del evento.")
  | some _ =>
  match p.dateStart, p.dateEnd with
  | none, _ => ([], .error "Debes indicar fecha inicio y fin.")
  | _, none => ([], .error "Debes indicar fecha inicio y fin.")
  | some ds, some de =>
  match p.workdayStart, p.workdayEnd with
  | none, _ => ([], .error "Debes indicar el horario laboral.")
  | _, none => ([], .error "Debes indicar el horario laboral.")
  | some wS, some wE =>
  match p.taskStart, p.taskEnd with
  | none, _ => ([], .error "Debes indicar el rango de la tarea.")
  | _, none => ([], .error "Debes indicar el rango de la tarea.")
  | some tS, some tE =>
  match ds, de with
  | none, _ => ([SchedAction.loadConfig, SchedAction.getToken], .error "Formato de fecha inválido.")
  | _, none => ([SchedAction.loadConfig, SchedAction.getToken], .error "Formato de fecha inválido.")
  | some s, some e =>
  if e < s then
    ([SchedAction.loadConfig, SchedAction.getToken],
      .error "La fecha fin no puede ser menor a la fecha inicio.")
  else
    let days := List.range' s (e - s + 1)
    let out := fun d => processDay env wS wE tS tE s e d
    let totalSlots := (days.map (fun d => (out d).2.1)).sum
    let totalCreated := (days.map (fun d => (out d).2.2)).sum
    (SchedAction.loadConfig :: SchedAction.getToken :: (days.map (fun d => (out d).1)).flatten,
      .ok { totalSlots := totalSlots, totalCreated := totalCreated,
            message := "Bloques totales: " ++ toString totalSlots ++
              ". Eventos creados: " ++ toString totalCreated ++ "." })

/-! ### Helper lemmas -/

theorem toMinutes_maxTimeStr (a b : HHMM) :
    toMinutes (maxTimeStr a b) = max (toMinutes a) (toMinutes b) := by
  unfold maxTimeStr
  split <;> omega

theorem toMinutes_minTimeStr (a b : HHMM) :
    toMinutes (minTimeStr a b) = min (toMinutes a) (toMinutes b) := by
  unfold minTimeStr
  split <;> omega

/-- C1: the effective day range is resolved by day role: on a single-day
run it is the intersection (max of starts, min of ends); on the first day
of a multi-day run (max of starts, workday end); on the last day (workday
start, min of ends); on interior days the workday window unmodified —
where max/min of "HH:MM" values compare minutes since midnight. -/
theorem resolveDayRange_by_role (wS wE tS tE : HHMM) (s e d : Nat) :
    (s = e →
      resolveDayRange wS wE tS tE s e d = (maxTimeStr wS tS, minTimeStr wE tE) ∧
      toMinutes (resolveDayRange wS wE tS tE s e d).1 = max (toMinutes wS) (toMinutes tS) ∧
      toMinutes (resolveDayRange wS wE tS tE s e d).2 = min (toMinutes wE) (toMinutes tE)) ∧
    (s ≠ e → d = s →
      resolveDayRange wS wE tS tE s e d = (maxTimeStr wS tS, wE) ∧
      toMinutes (resolveDayRange wS wE tS tE s e d).1 = max (toMinutes wS) (toMinutes tS)) ∧
    (s ≠ e → d ≠ s → d = e →
      resolveDayRange wS wE tS tE s e d = (wS, minTimeStr wE tE) ∧
      toMinutes (resolveDayRange wS wE tS tE s e d).2 = min (toMinutes wE) (toMinutes tE)) ∧
    (s ≠ e → d ≠ s → d ≠ e →
      resolveDayRange wS wE tS tE s e d = (wS, wE)) := by
  refine ⟨fun hse => ?_, fun hse hds => ?_, fun hse hds hde => ?_, fun hse hds hde => ?_⟩
  · subst hse
    simp [resolveDayRange, toMinutes_maxTimeStr, toMinutes_minTimeStr]
  · subst hds
    simp [resolveDayRange, hse, toMinutes_maxTimeStr]
  · subst hde
    simp [resolveDayRange, hse, hds, toMinutes_minTimeStr]
  · simp [resolveDayRange, hse, hds, hde]

/-- Witness for `resolveDayRange_by_role` at the spec's concrete example:
a 3-day run with workday 09:00–17:00 and task 10:00–15:00 gives
10:00–17:00 on day 1, 09:00–17:00 on day 2, 09:00–15:00 on day 3. -/
theorem resolveDayRange_by_role_witness :
    resolveDayRange ⟨9,0⟩ ⟨17,0⟩ ⟨10,0⟩ ⟨15,0⟩ 1 3 1 = (⟨10,0⟩, ⟨17,0⟩) ∧
    resolveDayRange ⟨9,0⟩ ⟨17,0⟩ ⟨10,0⟩ ⟨15,0⟩ 1 3 2 = (⟨9,0⟩, ⟨17,0⟩) ∧
    resolveDayRange ⟨9,0⟩ ⟨17,0⟩ ⟨10,0⟩ ⟨15,0⟩ 1 3 3 = (⟨9,0⟩, ⟨15,0⟩) := by
  refine ⟨?_, ?_, ?_⟩
  · exact ((resolveDayRange_by_role ⟨9,0⟩ ⟨17,0⟩ ⟨10,0⟩ ⟨15,0⟩ 1 3 1).2.1
      (by decide) rfl).1.trans (by decide)
  · exact (resolveDayRange_by_role ⟨9,0⟩ ⟨17,0⟩ ⟨10,0⟩ ⟨15,0⟩ 1 3 2).2.2.2
      (by decide) (by decide) (by decide)
  · exact ((resolveDayRange_by_role ⟨9,0⟩ ⟨17,0⟩ ⟨10,0⟩ ⟨15,0⟩ 1 3 3).2.2.1
      (by decide) (by decide) rfl).1.trans (by decide)

/-- The slots starting at `startMs` are consecutive, non-overlapping and
contiguous, each of exactly `delta` ms: each slot starts where the
previous one ended and has length `delta`. -/
def slotsChainFrom (startMs delta : Nat) : List Slot → Prop
  | [] => True
  | sl :: rest =>
      sl.start = startMs ∧ sl.stop = startMs + delta ∧
        slotsChainFrom (startMs + delta) delta rest

/-- With positive step, fuel covering the range guarantees the slot loop
exits (the result is `some`). -/
theorem createTimeSlotsFuel_isSome :
    ∀ fuel current endMs delta : Nat, 1 ≤ delta → endMs ≤ current + fuel * delta →
      ∃ slots, createTimeSlotsFuel fuel current endMs delta = some slots := by
  intro fuel
  induction fuel with
  | zero =>
    intro current endMs delta _ hf
    have h1 : ¬ current < endMs := by omega
    exact ⟨[], by simp [createTimeSlotsFuel, h1]⟩
  | succ n ih =>
    intro current endMs delta hd hf
    by_cases h1 : current < endMs
    · by_cases h2 : endMs < current + delta
      · exact ⟨[], by simp [createTimeSlotsFuel, h1, h2]⟩
      · have hmul : (n + 1) * delta = n * delta + delta := by ring
        rw [hmul] at hf
        obtain ⟨rest, hrest⟩ := ih (current + delta) endMs delta hd (by omega)
        exact ⟨{ start := current, stop := current + delta } :: rest,
          by simp [createTimeSlotsFuel, h1, h2, hrest]⟩
    · exact ⟨[], by simp [createTimeSlotsFuel, h1]⟩

/-- Whenever the slot loop exits, its output is a contiguous chain of
exactly-`delta` slots starting at `current`, none ending past `endMs`. -/
theorem createTimeSlotsFuel_chain :
    ∀ fuel current endMs delta slots, createTimeSlotsFuel fuel current endMs delta = some slots →
      slotsChainFrom current delta slots ∧ ∀ sl ∈ slots, sl.stop ≤ endMs := by
  intro fuel
  induction fuel with
  | zero =>
    intro current endMs delta slots h
    unfold createTimeSlotsFuel at h
    split at h
    · simp at h
    · obtain rfl : ([] : List Slot) = slots := by simpa using h
      simp [slotsChainFrom]
  | succ n ih =>
    intro current endMs delta slots h
    unfold createTimeSlotsFuel at h
    split at h
    case isTrue h1 =>
      split at h
      case isTrue h2 =>
        obtain rfl : ([] : List Slot) = slots := by simpa using h
        simp [slotsChainFrom]
      case isFalse h2 =>
        cases hrec : createTimeSlotsFuel n (current + delta) endMs delta with
        | none => rw [hrec] at h; simp at h
        | some rest =>
          rw [hrec] at h
          obtain rfl : { start := current, stop := current + delta } :: rest = slots := by
            simpa using h
          obtain ⟨hc, hb⟩ := ih (current + delta) endMs delta rest hrec
          refine ⟨⟨rfl, rfl, hc⟩, ?_⟩
          intro sl hsl
          rcases List.mem_cons.mp hsl with rfl | hsl
          · simpa using by omega
          · exact hb sl hsl
    case isFalse h1 =>
      obtain rfl : ([] : List Slot) = slots := by simpa using h
      simp [slotsChainFrom]

/-- When the range is already empty, the loop exits immediately with no
slots, whatever the fuel and step. -/
theorem createTimeSlotsFuel_empty (fuel current endMs delta : Nat)
    (h : ¬ current < endMs) :
    createTimeSlotsFuel fuel current endMs delta = some [] := by
  cases fuel <;> simp [createTimeSlotsFuel, h]

/-- The fuel `createTimeSlots` passes (`toMinutes endT + 1`) covers the
range when the duration is at least one minute. -/
theorem createTimeSlots_fuel_sufficient (base : Nat) (startT endT : HHMM)
    (durationMinutes : Nat) (hdur : 1 ≤ durationMinutes) :
    msOfTime base endT ≤
      msOfTime base startT + (toMinutes endT + 1) * (durationMinutes * 60000) := by
  have hdelta : 60000 ≤ durationMinutes * 60000 := by
    calc 60000 = 1 * 60000 := by ring
    _ ≤ durationMinutes * 60000 := Nat.mul_le_mul_right _ hdur
  have h1 : (toMinutes endT + 1) * 60000 ≤
      (toMinutes endT + 1) * (durationMinutes * 60000) :=
    Nat.mul_le_mul_left _ hdelta
  have h2 : (toMinutes endT + 1) * 60000 = toMinutes endT * 60000 + 60000 := by ring
  unfold msOfTime
  omega

/-- C2: for every date, range and positive duration, `createTimeSlots`
returns consecutive, non-overlapping, contiguous slots of exactly
`durationMinutes` each starting at the range start, never returns a slot
ending past the range end (a final partial slot is dropped, not
truncated), and returns the empty list whenever the range end is at or
before the range start. -/
theorem createTimeSlots_spec (base : Nat) (startT endT : HHMM) (durationMinutes : Nat)
    (hdur : 1 ≤ durationMinutes) :
    slotsChainFrom (msOfTime base startT) (durationMinutes * 60000)
      (createTimeSlots base startT endT durationMinutes) ∧
    (∀ sl ∈ createTimeSlots base startT endT durationMinutes,
      sl.stop ≤ msOfTime base endT) ∧
    (toMinutes endT ≤ toMinutes startT →
      createTimeSlots base startT endT durationMinutes = []) := by
  obtain ⟨slots, hs⟩ := createTimeSlotsFuel_isSome (toMinutes endT + 1)
    (msOfTime base startT) (msOfTime base endT) (durationMinutes * 60000)
    (by omega) (createTimeSlots_fuel_sufficient base startT endT durationMinutes hdur)
  have hS : createTimeSlots base startT endT durationMinutes = slots := by
    unfold createTimeSlots
    rw [hs]
    rfl
  have hcb := createTimeSlotsFuel_chain _ _ _ _ _ hs
  rw [hS]
  refine ⟨hcb.1, hcb.2, fun hle => ?_⟩
  have hlt : ¬ msOfTime base startT < msOfTime base endT := by
    unfold msOfTime
    have : toMinutes endT * 60000 ≤ toMinutes startT * 60000 :=
      Nat.mul_le_mul_right _ hle
    omega
  have hE := createTimeSlotsFuel_empty (toMinutes endT + 1) (msOfTime base startT)
    (msOfTime base endT) (durationMinutes * 60000) hlt
  exact Option.some.inj (hs.symm.trans hE)

/-- Witness for `createTimeSlots_spec`: 09:00–12:00 with 30-minute slots
on the day with base instant 0. -/
theorem createTimeSlots_spec_witness :
    1 ≤ 30 ∧
    (slotsChainFrom (msOfTime 0 ⟨9,0⟩) (30 * 60000) (createTimeSlots 0 ⟨9,0⟩ ⟨12,0⟩ 30) ∧
     (∀ sl ∈ createTimeSlots 0 ⟨9,0⟩ ⟨12,0⟩ 30, sl.stop ≤ msOfTime 0 ⟨12,0⟩) ∧
     (toMinutes (⟨12,0⟩ : HHMM) ≤ toMinutes (⟨9,0⟩ : HHMM) →
       createTimeSlots 0 ⟨9,0⟩ ⟨12,0⟩ 30 = [])) :=
  ⟨by decide, createTimeSlots_spec 0 ⟨9,0⟩ ⟨12,0⟩ 30 (by decide)⟩

/-- C10: `createTimeSlots` terminates whenever `durationMinutes ≥ 1` (its
loop, run with the fuel the wrapper supplies, exits with a result), and
the guarantee fails without the precondition: with `durationMinutes = 0`
and a non-empty range the loop makes no progress, so no amount of fuel
makes it exit. -/
theorem createTimeSlots_termination (base : Nat) (startT endT : HHMM)
    (durationMinutes : Nat) :
    (1 ≤ durationMinutes →
      (createTimeSlotsFuel (toMinutes endT + 1) (msOfTime base startT)
        (msOfTime base endT) (durationMinutes * 60000)).isSome) ∧
    (msOfTime base startT < msOfTime base endT →
      ∀ fuel, createTimeSlotsFuel fuel (msOfTime base startT)
        (msOfTime base endT) (0 * 60000) = none) := by
  constructor
  · intro hdur
    obtain ⟨slots, hs⟩ := createTimeSlotsFuel_isSome (toMinutes endT + 1)
      (msOfTime base startT) (msOfTime base endT) (durationMinutes * 60000)
      (by omega) (createTimeSlots_fuel_sufficient base startT endT durationMinutes hdur)
    simp [hs]
  · intro hlt fuel
    have : ∀ f c e : Nat, c < e → createTimeSlotsFuel f c e 0 = none := by
      intro f
      induction f with
      | zero => intro c e h; simp [createTimeSlotsFuel, h]
      | succ n ih =>
        intro c e h
        have h2 : ¬ e < c + 0 := by omega
        simp [createTimeSlotsFuel, h, h2, ih c e h]
        omega
    simpa using this fuel _ _ hlt

/-- Witness for `createTimeSlots_termination` on the range 00:01–00:02:
with duration 1 the loop exits; with duration 0 it never does. -/
theorem createTimeSlots_termination_witness :
    (createTimeSlotsFuel (toMinutes (⟨0,2⟩ : HHMM) + 1) (msOfTime 0 ⟨0,1⟩)
      (msOfTime 0 ⟨0,2⟩) (1 * 60000)).isSome ∧
    createTimeSlotsFuel 5 (msOfTime 0 ⟨0,1⟩) (msOfTime 0 ⟨0,2⟩) (0 * 60000) = none :=
  ⟨(createTimeSlots_termination 0 ⟨0,1⟩ ⟨0,2⟩ 1).1 (by decide),
   (createTimeSlots_termination 0 ⟨0,1⟩ ⟨0,2⟩ 0).2 (by decide) 5⟩

/-- C3: `filterFreeSlots` retains exactly the slots that overlap no busy
period (half-open overlap: `aStart < bEnd && bStart < aEnd`), a slot that
merely touches a busy period at a boundary is retained, and the output
preserves input order (it is a sublist of the input); being a pure
function of its two arguments, it is deterministic. -/
theorem filterFreeSlots_spec (slots busyPeriods : List Slot) :
    filterFreeSlots slots busyPeriods =
      slots.filter
        (fun s => ! busyPeriods.any fun b => overlaps s.start s.stop b.start b.stop) ∧
    List.Sublist (filterFreeSlots slots busyPeriods) slots ∧
    (∀ s, s ∈ filterFreeSlots slots busyPeriods ↔
      s ∈ slots ∧ ∀ b ∈ busyPeriods, ¬(s.start < b.stop ∧ b.start < s.stop)) ∧
    (∀ s b : Slot, s.stop = b.start ∨ b.stop = s.start →
      overlaps s.start s.stop b.start b.stop = false) := by
  have hfil : ∀ sl : List Slot, filterFreeSlots sl busyPeriods =
      sl.filter (fun s => ! busyPeriods.any fun b => overlaps s.start s.stop b.start b.stop) := by
    intro sl
    induction sl with
    | nil => rfl
    | cons s rest ih =>
      unfold filterFreeSlots
      rw [List.filter_cons]
      by_cases h : busyPeriods.any fun b => overlaps s.start s.stop b.start b.stop
      · simp [h, ih]
      · simp [h, ih]
  refine ⟨hfil slots, ?_, fun s => ?_, fun s b h => ?_⟩
  · rw [hfil slots]
    exact List.filter_sublist slots
  · rw [hfil slots]
    simp [List.mem_filter, List.any_eq_true, overlaps]
  · rcases h with h | h <;> simp [overlaps] <;> omega

/-- C8: `isAuthenticated` is true iff an access token and an expiry are
present and `now` is strictly before `expires_at` minus the 60-second
margin; in particular an expiry 30 seconds ahead yields false and one 90
seconds ahead yields true. The check is a pure function of the clock and
the stored value: no network call, no mutation. -/
theorem isAuthenticated_spec (now : Int) (stored : Option Tokens) (aTok : String)
    (rt : Option String) :
    (isAuthenticated now stored = true ↔
      ∃ t e, stored = some t ∧ t.access_token.isSome ∧ t.expires_at = some e ∧
        now < e - 60 * 1000) ∧
    isAuthenticated now (some ⟨some aTok, rt, some (now + 30 * 1000)⟩) = false ∧
    isAuthenticated now (some ⟨some aTok, rt, some (now + 90 * 1000)⟩) = true := by
  refine ⟨?_, ?_, ?_⟩
  · cases stored with
    | none => simp [isAuthenticated, isTokenStillValid]
    | some t =>
      rcases t with ⟨acc, rtk, ex⟩
      cases acc <;> cases ex <;> simp [isAuthenticated, isTokenStillValid]
  · simp [isAuthenticated, isTokenStillValid]
  · simp [isAuthenticated, isTokenStillValid]
    omega

/-- C4: when the stored credential is valid, `getAccessToken` returns it
unchanged with no remote step; when it is invalid and a refresh token
exists, a failing refresh is never propagated — the call falls back to
the full interactive flow (and succeeds whenever that flow does); with no
refresh token (or no stored credential) the interactive flow runs
directly, with no refresh attempt. -/
theorem getAccessToken_spec (env : AuthEnv) (now : Int) (stored : Option Tokens) :
    (isTokenStillValid now stored = true →
      getAccessToken env now stored =
        ([], .ok ((match stored with
                   | some t => t.access_token.getD ""
                   | none => ""), stored))) ∧
    (isTokenStillValid now stored = false →
      ∀ t, stored = some t → t.refresh_token.isSome →
        ∀ m, env.refreshOutcome = .error m →
          getAccessToken env now stored = runInteractive env [.refreshCall] ∧
          (∀ t', env.interactiveOutcome = .ok t' →
            (getAccessToken env now stored).2 = .ok (t'.access_token.getD "", some t'))) ∧
    (isTokenStillValid now stored = false →
      (∀ t, stored = some t → t.refresh_token = none) →
      getAccessToken env now stored = runInteractive env [] ∧
      AuthEv.refreshCall ∉ (getAccessToken env now stored).1) := by
  refine ⟨fun hv => ?_, fun hv t ht hrt m hm => ?_, fun hv hnort => ?_⟩
  · simp [getAccessToken, hv]
  · subst ht
    refine ⟨by simp [getAccessToken, hv, hrt, hm], fun t' h' => ?_⟩
    simp [getAccessToken, hv, hrt, hm, runInteractive, h']
  · cases stored with
    | none =>
      refine ⟨by simp [getAccessToken, hv], ?_⟩
      simp only [getAccessToken, hv, runInteractive]
      cases env.interactiveOutcome <;> simp
    | some t =>
      have hrt : t.refresh_token = none := hnort t rfl
      refine ⟨by simp [getAccessToken, hv, hrt], ?_⟩
      simp only [getAccessToken, hv, hrt, runInteractive]
      cases env.interactiveOutcome <;> simp

/-- Witness for `getAccessToken_spec`: an expired credential with a
refresh token, a failing refresh, and a succeeding interactive flow. -/
theorem getAccessToken_spec_witness :
    getAccessToken ⟨.error "fail", .ok ⟨some "tok2", some "r2", some 999⟩⟩ 100
        (some ⟨some "tok", some "r", some 50⟩) =
      runInteractive ⟨.error "fail", .ok ⟨some "tok2", some "r2", some 999⟩⟩
        [.refreshCall] ∧
    (getAccessToken ⟨.error "fail", .ok ⟨some "tok2", some "r2", some 999⟩⟩ 100
        (some ⟨some "tok", some "r", some 50⟩)).2 =
      .ok ("tok2", some ⟨some "tok2", some "r2", some 999⟩) := by
  have h := (getAccessToken_spec ⟨.error "fail", .ok ⟨some "tok2", some "r2", some 999⟩⟩
    100 (some ⟨some "tok", some "r", some 50⟩)).2.1 (by decide) _ rfl (by decide) "fail" rfl
  exact ⟨h.1, h.2 _ rfl⟩

/-- C5, against the source: the free/busy window is built with a fixed
-05:00 offset, so it matches the configured time zone's interpretation
exactly when that zone's offset is -300 minutes, and for every other
configured offset the instants sent to the busy query are wrong; for
America/New_York in summer (offset -240) the window is off by 60
minutes. -/
theorem busyQueryWindow_fixed_offset (dayBaseUtc : Int) (t : HHMM)
    (offsetMinutes : Int) :
    busyQueryWindowUtc dayBaseUtc t = zoneWindowUtc (-300) dayBaseUtc t ∧
    (offsetMinutes ≠ -300 →
      busyQueryWindowUtc dayBaseUtc t ≠ zoneWindowUtc offsetMinutes dayBaseUtc t) ∧
    busyQueryWindowUtc 0 ⟨9,0⟩ - zoneWindowUtc (-240) 0 ⟨9,0⟩ = 60 := by
  refine ⟨?_, fun h => ?_, ?_⟩
  · unfold busyQueryWindowUtc zoneWindowUtc
    ring
  · unfold busyQueryWindowUtc zoneWindowUtc
    omega
  · decide

/-- Witness for `busyQueryWindow_fixed_offset` at offset -240. -/
theorem busyQueryWindow_fixed_offset_witness :
    busyQueryWindowUtc 0 ⟨9,0⟩ ≠ zoneWindowUtc (-240) 0 ⟨9,0⟩ :=
  (busyQueryWindow_fixed_offset 0 ⟨9,0⟩ (-240)).2.1 (by decide)

/-- The filtered slot list is a sublist of the input. -/
theorem filterFreeSlots_sublist (slots busyPeriods : List Slot) :
    List.Sublist (filterFreeSlots slots busyPeriods) slots := by
  induction slots with
  | nil => exact List.Sublist.refl _
  | cons s rest ih =>
    unfold filterFreeSlots
    split
    · exact ih.trans (List.sublist_cons_self s rest)
    · exact ih.cons₂ s

/-- Each day contributes at most as many created events as generated
slots. -/
theorem processDay_created_le (env : SchedEnv) (wS wE tS tE : HHMM) (s e d : Nat) :
    (processDay env wS wE tS tE s e d).2.2 ≤ (processDay env wS wE tS tE s e d).2.1 := by
  unfold processDay
  dsimp only
  split
  · simpa using (filterFreeSlots_sublist _ _).length_le
  · simp

/-- Every action a day's iteration emits is scoped to that day. -/
theorem processDay_trace_day (env : SchedEnv) (wS wE tS tE : HHMM) (s e d : Nat)
    (a : SchedAction) (ha : a ∈ (processDay env wS wE tS tE s e d).1) :
    schedActionDay a = some d := by
  unfold processDay at ha
  by_cases hv : isValidRange (resolveDayRange wS wE tS tE s e d).1
      (resolveDayRange wS wE tS tE s e d).2
  · simp only [hv, if_true] at ha
    rcases List.mem_cons.mp ha with rfl | ha
    · rfl
    · obtain ⟨sl, _, rfl⟩ := List.mem_map.mp ha
      rfl
  · simp [hv] at ha

/-- C7: a day whose resolved effective range is invalid (end ≤ start in
minutes) is skipped entirely: its iteration emits no busy query and no
event creation and adds nothing to either total, the run's trace contains
no action for that day, and the run still completes with a result rather
than an error. -/
theorem runScheduler_skips_invalid_day (env : SchedEnv) (n : String) (c : Option Nat)
    (wS wE tS tE : HHMM) (s e d : Nat) (hse : ¬ e < s)
    (hinv : isValidRange (resolveDayRange wS wE tS tE s e d).1
      (resolveDayRange wS wE tS tE s e d).2 = false) :
    processDay env wS wE tS tE s e d = ([], 0, 0) ∧
    SchedAction.busyQuery d ∉ (runScheduler env (mkPayload n c s e wS wE tS tE)).1 ∧
    (∀ sl, SchedAction.createEvent d sl ∉
      (runScheduler env (mkPayload n c s e wS wE tS tE)).1) ∧
    ∃ r, (runScheduler env (mkPayload n c s e wS wE tS tE)).2 = .ok r := by
  have hPD : processDay env wS wE tS tE s e d = ([], 0, 0) := by
    unfold processDay
    dsimp only
    simp [hinv]
  have hfst : (runScheduler env (mkPayload n c s e wS wE tS tE)).1 =
      SchedAction.loadConfig :: SchedAction.getToken ::
        ((List.range' s (e - s + 1)).map
          (fun d' => (processDay env wS wE tS tE s e d').1)).flatten := by
    simp [runScheduler, mkPayload, hse]
  have hnotin : ∀ a : SchedAction, schedActionDay a = some d →
      a ∉ (runScheduler env (mkPayload n c s e wS wE tS tE)).1 := by
    intro a hday hmem
    rw [hfst] at hmem
    rcases List.mem_cons.mp hmem with rfl | hmem
    · simp [schedActionDay] at hday
    rcases List.mem_cons.mp hmem with rfl | hmem
    · simp [schedActionDay] at hday
    obtain ⟨l, hl, hal⟩ := List.mem_flatten.mp hmem
    obtain ⟨d', _, rfl⟩ := List.mem_map.mp hl
    have hd' := processDay_trace_day env wS wE tS tE s e d' a hal
    rw [hday] at hd'
    obtain rfl : d = d' := by simpa using hd'
    rw [hPD] at hal
    simp at hal
  refine ⟨hPD, hnotin _ rfl, fun sl => hnotin _ rfl, ?_⟩
  simp [runScheduler, mkPayload, hse]

/-- Witness for `runScheduler_skips_invalid_day`: on a two-day run with
task end 08:00 before workday start 09:00, the last day resolves to the
invalid range 09:00–08:00 and is skipped. -/
theorem runScheduler_skips_invalid_day_witness :
    processDay ⟨30, fun _ => []⟩ ⟨9,0⟩ ⟨17,0⟩ ⟨10,0⟩ ⟨8,0⟩ 0 1 1 = ([], 0, 0) ∧
    SchedAction.busyQuery 1 ∉
      (runScheduler ⟨30, fun _ => []⟩ (mkPayload "x" none 0 1 ⟨9,0⟩ ⟨17,0⟩ ⟨10,0⟩ ⟨8,0⟩)).1 ∧
    (∀ sl, SchedAction.createEvent 1 sl ∉
      (runScheduler ⟨30, fun _ => []⟩ (mkPayload "x" none 0 1 ⟨9,0⟩ ⟨17,0⟩ ⟨10,0⟩ ⟨8,0⟩)).1) ∧
    ∃ r, (runScheduler ⟨30, fun _ => []⟩
      (mkPayload "x" none 0 1 ⟨9,0⟩ ⟨17,0⟩ ⟨10,0⟩ ⟨8,0⟩)).2 = .ok r :=
  runScheduler_skips_invalid_day ⟨30, fun _ => []⟩ "x" none ⟨9,0⟩ ⟨17,0⟩ ⟨10,0⟩ ⟨8,0⟩
    0 1 1 (by decide) (by decide)

/-- C9: whenever `runScheduler` completes with a result, the counters
satisfy `totalCreated ≤ totalSlots` (both are `Nat`, so `0 ≤` holds
automatically): each day creates exactly one event per free slot, the
free slots are a sublist of the generated slots, and both totals are sums
of per-day non-negative contributions. -/
theorem runScheduler_counters (env : SchedEnv) (p : Payload) (tr : List SchedAction)
    (r : RunResult) (h : runScheduler env p = (tr, .ok r)) :
    r.totalCreated ≤ r.totalSlots := by
  obtain ⟨en, ec, ds, de, wsO, weO, tsO, teO⟩ := p
  cases en with
  | none => simp [runScheduler] at h
  | some n =>
  cases ds with
  | none => simp [runScheduler] at h
  | some dsv =>
  cases de with
  | none => simp [runScheduler] at h
  | some dev =>
  cases wsO with
  | none => simp [runScheduler] at h
  | some wS =>
  cases weO with
  | none => simp [runScheduler] at h
  | some wE =>
  cases tsO with
  | none => simp [runScheduler] at h
  | some tS =>
  cases teO with
  | none => simp [runScheduler] at h
  | some tE =>
  cases dsv with
  | none => simp [runScheduler] at h
  | some s =>
  cases dev with
  | none => simp [runScheduler] at h
  | some e =>
  by_cases hlt : e < s
  · simp [runScheduler, hlt] at h
  · simp [runScheduler, hlt] at h
    obtain ⟨-, hr⟩ := h
    rw [← hr]
    dsimp only
    refine List.sum_le_sum ?_
    intro d _
    exact processDay_created_le env wS wE tS tE s e d

/-- Witness for `runScheduler_counters`: a one-day run, 09:00–10:00 with
30-minute slots and no busy periods, creating 2 events from 2 slots. -/
theorem runScheduler_counters_witness :
    runScheduler ⟨30, fun _ => []⟩ (mkPayload "x" none 0 0 ⟨9,0⟩ ⟨10,0⟩ ⟨9,0⟩ ⟨10,0⟩) =
      ([SchedAction.loadConfig, SchedAction.getToken, SchedAction.busyQuery 0,
        SchedAction.createEvent 0 ⟨32400000, 34200000⟩,
        SchedAction.createEvent 0 ⟨34200000, 36000000⟩],
       .ok ⟨2, 2, "Bloques totales: 2. Eventos creados: 2."⟩) ∧
    (2 : Nat) ≤ 2 :=
  ⟨by rfl,
   runScheduler_counters ⟨30, fun _ => []⟩
     (mkPayload "x" none 0 0 ⟨9,0⟩ ⟨10,0⟩ ⟨9,0⟩ ⟨10,0⟩) _ _ (by rfl)⟩

/-- C6 counterexample: a payload with every field present but an
unparseable start date. `runScheduler` performs config load and token
acquisition first and only then reports the invalid-date error, so the
error is not reported before token acquisition as claimed. -/
theorem runScheduler_validation_counterexample :
    (runScheduler ⟨30, fun _ => []⟩
      { eventName := some "x", eventColor := none,
        dateStart := some none, dateEnd := some (some 0),
        workdayStart := some ⟨9,0⟩, workdayEnd := some ⟨17,0⟩,
        taskStart := some ⟨9,0⟩, taskEnd := some ⟨17,0⟩ }).2 =
      .error "Formato de fecha inválido." ∧
    SchedAction.getToken ∈ (runScheduler ⟨30, fun _ => []⟩
      { eventName := some "x", eventColor := none,
        dateStart := some none, dateEnd := some (some 0),
        workdayStart := some ⟨9,0⟩, workdayEnd := some ⟨17,0⟩,
        taskStart := some ⟨9,0⟩, taskEnd := some ⟨17,0⟩ }).1 := by
  constructor
  · rfl
  · simp [runScheduler]

/-- C6 as amended: presence of every required field is validated and
reported before any call at all (the trace is empty on a missing field);
date-format validity and the `dateEnd ≥ dateStart` invariant are checked
only after configuration load and token acquisition, but every
request-level validation error is still reported before any busy query or
any event creation. -/
theorem runScheduler_validation_order (env : SchedEnv) (p : Payload) :
    ((p.eventName = none ∨ p.dateStart = none ∨ p.dateEnd = none ∨
      p.workdayStart = none ∨ p.workdayEnd = none ∨ p.taskStart = none ∨
      p.taskEnd = none) →
      (runScheduler env p).1 = [] ∧ ∃ m, (runScheduler env p).2 = .error m) ∧
    (∀ m, (runScheduler env p).2 = .error m →
      (∀ d, SchedAction.busyQuery d ∉ (runScheduler env p).1) ∧
      (∀ d sl, SchedAction.createEvent d sl ∉ (runScheduler env p).1)) := by
  obtain ⟨en, ec, ds, de, wsO, weO, tsO, teO⟩ := p
  constructor
  · intro hmiss
    cases en <;> cases ds <;> cases de <;> cases wsO <;> cases weO <;>
      cases tsO <;> cases teO <;> simp_all [runScheduler]
  · intro m hm
    cases en with
    | none => simp [runScheduler]
    | some n =>
    cases ds with
    | none => simp [runScheduler]
    | some dsv =>
    cases de with
    | none => simp [runScheduler]
    | some dev =>
    cases wsO with
    | none => simp [runScheduler]
    | some wS =>
    cases weO with
    | none => simp [runScheduler]
    | some wE =>
    cases tsO with
    | none => simp [runScheduler]
    | some tS =>
    cases teO with
    | none => simp [runScheduler]
    | some tE =>
    cases dsv with
    | none => simp [runScheduler]
    | some s =>
    cases dev with
    | none => simp [runScheduler]
    | some e =>
    by_cases hlt : e < s
    · simp [runScheduler, hlt]
    · simp [runScheduler, hlt] at hm

/-- Witness for `runScheduler_validation_order`: a payload missing only
the event name is rejected with an empty trace. -/
theorem runScheduler_validation_order_witness :
    (runScheduler ⟨30, fun _ => []⟩
      { eventName := none, eventColor := none,
        dateStart := some (some 0), dateEnd := some (some 0),
        workdayStart := some ⟨9,0⟩, workdayEnd := some ⟨17,0⟩,
        taskStart := some ⟨9,0⟩, taskEnd := some ⟨17,0⟩ }).1 = [] ∧
    ∃ m, (runScheduler ⟨30, fun _ => []⟩
      { eventName := none, eventColor := none,
        dateStart := some (some 0), dateEnd := some (some 0),
        workdayStart := some ⟨9,0⟩, workdayEnd := some ⟨17,0⟩,
        taskStart := some ⟨9,0⟩, taskEnd := some ⟨17,0⟩ }).2 = .error m :=
  (runScheduler_validation_order ⟨30, fun _ => []⟩
    { eventName := none, eventColor := none,
      dateStart := some (some 0), dateEnd := some (some 0),
      workdayStart := some ⟨9,0⟩, workdayEnd := some ⟨17,0⟩,
      taskStart := some ⟨9,0⟩, taskEnd := some ⟨17,0⟩ }).1 (Or.inl rfl)
